import Mathlib

/-!
Verification development for the MyLLMServer repository.

The Python sources under scrutiny are `server/config.py` (parameter registry
and validator), `server/llm_manager.py` (model loading, generation, context
accounting) and `server/server.py` (the HTTP handlers and the process-wide
model slot).  Pure functions are translated directly; external effects (the
`llama_cpp` engine, logging, the HTTP transport) are abstracted as explicit
oracle inputs, and the process-global mutable slot of `server.py` is threaded
as an explicit `ServerState`.  Python floats are modelled as exact rationals,
Python dicts as insertion-ordered association lists compared extensionally
(Python `==` on dicts is value equality), and Python strings as `String` or
`List Char` (for the streaming text where prefix reasoning is needed).
-/

set_option maxHeartbeats 1000000

/-- Parameter kinds, the `"type"` field of a parameter definition in
`config.py` (`"integer" | "float" | "boolean"`). -/
inductive PType where
  | integer
  | float
  | boolean
deriving DecidableEq

/-- A Python value as it appears in parameter maps: int, float (modelled as an
exact rational), bool or string. -/
inductive PVal where
  | i (z : Int)
  | f (q : ℚ)
  | b (v : Bool)
  | s (str : String)
deriving DecidableEq

/-- A parameter definition from `config.py`: default value, optional `min` /
`max` bounds, a type tag and a description string. -/
structure ParamDef where
  default : PVal
  minv : Option ℚ
  maxv : Option ℚ
  ptype : PType
  descr : String
deriving DecidableEq

/-- Structured counterpart of the `ValueError` messages raised by
`validate_parameter` in `config.py`: a coercion failure, or a violated
`min` / `max` bound, each naming the offending parameter. -/
inductive VErr where
  | typeErr (pname : String)
  | rangeBelow (pname : String)
  | rangeAbove (pname : String)
deriving DecidableEq

/-- A Python dict with string keys, as an insertion-ordered association list. -/
abbrev ParamsMap := List (String × PVal)

/-- First-match association-list lookup (`d[k]` / `k in d`). -/
def lookupA {α : Type} : List (String × α) → String → Option α
  | [], _ => none
  | (k, v) :: r, n => if k = n then some v else lookupA r n

/-- Dict assignment `d[k] = v`: replaces the value in place if the key exists
(Python dicts keep the original position of an updated key), else appends. -/
def insertA {α : Type} : List (String × α) → String → α → List (String × α)
  | [], n, v => [(n, v)]
  | (k, w) :: r, n, v => if k = n then (k, v) :: r else (k, w) :: insertA r n v

/-- Python `dict.update`: fold the right map's entries into the left one. -/
def pmUpdate (base upd : ParamsMap) : ParamsMap :=
  upd.foldl (fun acc p => insertA acc p.1 p.2) base

/-- Python dict value equality (`==` / `!=`): same keys mapped to the same
values, irrespective of insertion order. -/
def pmEqb (a b : ParamsMap) : Bool :=
  (a.map Prod.fst ++ b.map Prod.fst).all
    (fun k => decide (lookupA a k = lookupA b k))

/-- Equality of two optional dicts, with `None` equal only to `None`
(Python `None != {}` is true). -/
def optPmEq : Option ParamsMap → Option ParamsMap → Bool
  | none, none => true
  | some a, some b => pmEqb a b
  | _, _ => false

/-! ### Python string and number coercion primitives -/

/-- The whitespace characters stripped by Python `str.strip()`. -/
def pyIsSpace (c : Char) : Bool :=
  (c == ' ') || (c == '\t') || (c == '\n') || (c == '\r') ||
  (c == '\x0b') || (c == '\x0c')

/-- Leading-whitespace strip. -/
def lstrip (s : List Char) : List Char := s.dropWhile pyIsSpace

/-- Trailing-whitespace strip. -/
def rstrip (s : List Char) : List Char := (s.reverse.dropWhile pyIsSpace).reverse

/-- Python `str.strip()` on a character list. -/
def pstrip (s : List Char) : List Char := rstrip (lstrip s)

/-- Digit-string accumulator for `int(...)` parsing. -/
def digitsAux : List Char → Nat → Option Nat
  | [], acc => some acc
  | c :: r, acc =>
    if c.isDigit then digitsAux r (acc * 10 + (c.toNat - 48)) else none

/-- A non-empty all-digit string to a natural number. -/
def digitsToNat? : List Char → Option Nat
  | [] => none
  | cs => digitsAux cs 0

/-- Python `int(str)`: strip whitespace, optional sign, decimal digits. -/
def parseIntStr? (s : String) : Option Int :=
  match pstrip s.data with
  | '-' :: r => (digitsToNat? r).map (fun n => -(n : Int))
  | '+' :: r => (digitsToNat? r).map (fun n => (n : Int))
  | r => (digitsToNat? r).map (fun n => (n : Int))

/-- Floor of a rational (`Int.fdiv` rounds toward negative infinity). -/
def ratFloor (q : ℚ) : Int := Int.fdiv q.num q.den

/-- Truncation toward zero, the behaviour of Python `int(float)`. -/
def truncQ (q : ℚ) : Int := if q < 0 then -(ratFloor (-q)) else ratFloor q

/-- An unsigned decimal-notation literal (integer part, optional fractional
part) read as an exact rational. -/
def parseDecimal? (cs : List Char) : Option ℚ :=
  let ip := cs.takeWhile Char.isDigit
  match cs.dropWhile Char.isDigit with
  | [] =>
    (digitsToNat? ip).map (fun n => (n : ℚ))
  | '.' :: fp =>
    if fp.all Char.isDigit && !(ip.isEmpty && fp.isEmpty) then
      some (((ip.foldl (fun a c => a * 10 + (c.toNat - 48)) 0 : Nat) : ℚ)
        + ((fp.foldl (fun a c => a * 10 + (c.toNat - 48)) 0 : Nat) : ℚ)
          / ((10 : ℚ) ^ fp.length))
    else none
  | _ => none

/-- Python `float(str)` on plain decimal notation:
optional sign, integer part, optional fractional part. -/
def parseFloatStr? (s : String) : Option ℚ :=
  match pstrip s.data with
  | '-' :: r => (parseDecimal? r).map (fun q => -q)
  | '+' :: r => parseDecimal? r
  | r => parseDecimal? r

/-- Python `int(value)` over our value type: identity on ints, truncation on
floats, `True ↦ 1` / `False ↦ 0`, decimal parse on strings. -/
def toInt? : PVal → Option Int
  | .i z => some z
  | .f q => some (truncQ q)
  | .b v => some (if v then 1 else 0)
  | .s str => parseIntStr? str

/-- Python `float(value)` over our value type. -/
def toFloat? : PVal → Option ℚ
  | .i z => some (z : ℚ)
  | .f q => some q
  | .b v => some (if v then 1 else 0)
  | .s str => parseFloatStr? str

/-- Python `str.lower()` (ASCII letters, the relevant range here). -/
def pyLower (s : String) : String := ⟨s.data.map Char.toLower⟩

/-- The `value.lower() in ('true', '1', 'yes', 'on')` from `validate_parameter`. -/
def pyLowerIn (s : String) : Bool :=
  decide (pyLower s ∈ (["true", "1", "yes", "on"] : List String))

/-- Python `bool(value)` on non-string values. -/
def pyTruthy : PVal → Bool
  | .i z => decide (z ≠ 0)
  | .f q => decide (q ≠ 0)
  | .b v => v
  | .s str => decide (str ≠ "")

/-- The `min` bound violated? (`value < param_def["min"]`). -/
def belowMin (q : ℚ) : Option ℚ → Bool
  | none => false
  | some lo => decide (q < lo)

/-- The `max` bound violated? (`value > param_def["max"]`). -/
def aboveMax (q : ℚ) : Option ℚ → Bool
  | none => false
  | some hi => decide (hi < q)

/-- The bounds check at the end of `validate_parameter` (`config.py`):
`min` is checked first, then `max`; on success the coerced value `out`
is returned unchanged. -/
def rangeCheck (pname : String) (q : ℚ) (pd : ParamDef) (out : PVal) :
    Except VErr PVal :=
  if belowMin q pd.minv then .error (.rangeBelow pname)
  else if aboveMax q pd.maxv then .error (.rangeAbove pname)
  else .ok out

/-- The `validate_parameter(param_name, value, param_def)` from `config.py`.
Booleans: strings are tested against the truthy forms and returned at once
(the bounds check is never reached for booleans); other values go through
`bool(...)`.  Integers and floats are coerced (`int(...)` / `float(...)`,
failure is a type error) and then bounds-checked. -/
def validate_parameter (pname : String) (value : PVal) (pd : ParamDef) :
    Except VErr PVal :=
  match pd.ptype with
  | .boolean =>
    match value with
    | .s str => .ok (.b (pyLowerIn str))
    | v => .ok (.b (pyTruthy v))
  | .integer =>
    match toInt? value with
    | none => .error (.typeErr pname)
    | some z => rangeCheck pname (z : ℚ) pd (.i z)
  | .float =>
    match toFloat? value with
    | none => .error (.typeErr pname)
    | some q => rangeCheck pname q pd (.f q)

/-! ### The static registries from `config.py` -/

/-- The `GLOBAL_LOADING_PARAMETERS` from `config.py`. -/
def GLOBAL_LOADING_PARAMETERS : List (String × ParamDef) :=
  [ ("n_gpu_layers",
      ⟨PVal.i (-1), some (-1), some 100, PType.integer,
        "Number of GPU layers (-1 for all available)"⟩),
    ("n_threads",
      ⟨PVal.i 8, some 1, some 32, PType.integer,
        "Number of CPU threads for computation"⟩),
    ("use_mlock",
      ⟨PVal.b true, none, none, PType.boolean,
        "Keep model in memory (prevents swapping)"⟩),
    ("use_mmap",
      ⟨PVal.b true, none, none, PType.boolean,
        "Use memory mapping for model files"⟩),
    ("f16_kv",
      ⟨PVal.b true, none, none, PType.boolean,
        "Use half-precision for key-value cache"⟩) ]

/-- The `GLOBAL_INFERENCE_PARAMETERS` from `config.py`. -/
def GLOBAL_INFERENCE_PARAMETERS : List (String × ParamDef) :=
  [ ("temperature",
      ⟨PVal.f ⟨7, 10, by decide, by decide⟩, some 0, some 2, PType.float,
        "Controls randomness in generation (0.0 = deterministic, 2.0 = very random)"⟩),
    ("max_tokens",
      ⟨PVal.i 300, some 1, some 4096, PType.integer,
        "Maximum number of tokens to generate"⟩),
    ("top_p",
      ⟨PVal.f ⟨19, 20, by decide, by decide⟩, some 0, some 1, PType.float,
        "Nucleus sampling - cumulative probability cutoff"⟩),
    ("top_k",
      ⟨PVal.i 40, some 1, some 100, PType.integer,
        "Top-k sampling - consider only top k tokens"⟩),
    ("repeat_penalty",
      ⟨PVal.f ⟨11, 10, by decide, by decide⟩, some 1, some 2, PType.float,
        "Penalty for repeating tokens (1.0 = no penalty)"⟩),
    ("min_p",
      ⟨PVal.f ⟨1, 20, by decide, by decide⟩, some 0, some 1, PType.float,
        "Minimum probability threshold for token selection"⟩) ]

/-- The `ModelConfig` from `llm_manager.py` (one entry of `MODEL_ASSIGNMENTS`). -/
structure ModelConfig where
  name : String
  model_path : String
  max_context_window : Int
  inference_params : List (String × String)
  loading_params : List (String × ParamDef)
  default_params : ParamsMap
deriving DecidableEq

/-- The per-model `n_ctx` loading-parameter definition shared by both entries
of `MODEL_ASSIGNMENTS` in `config.py`. -/
def nCtxDef : ParamDef :=
  ⟨PVal.i 2048, some 512, some 8192, PType.integer,
    "Context window size for this model"⟩

/-- The `MODEL_ASSIGNMENTS` from `config.py`. -/
def MODEL_ASSIGNMENTS : List (String × ModelConfig) :=
  [ ("MyMainLLM",
      ⟨"kunoichi",
        "C:/Users/soulo/.cache/lm-studio/models/TheBloke/Kunoichi-7B-GGUF/kunoichi-7b.Q6_K.gguf",
        8192,
        [ ("pre_prompt_prefix", ""), ("pre_prompt_suffix", ""),
          ("input_prefix", "\n### Instruction:\n"), ("input_suffix", ""),
          ("assistant_prefix", "\n### Response:\n"), ("assistant_suffix", "") ],
        [ ("n_ctx", nCtxDef) ],
        [ ("temperature", PVal.f ⟨7, 10, by decide, by decide⟩), ("max_tokens", PVal.i 300),
          ("top_p", PVal.f ⟨19, 20, by decide, by decide⟩) ]⟩),
    ("MySecondLLM",
      ⟨"alphamonarch",
        "C:/Users/soulo/.cache/lm-studio/models/mlabonne/AlphaMonarch-7B-GGUF/alphamonarch-7b.Q4_0.gguf",
        8192,
        [ ("pre_prompt_prefix", "<|im_start|>system\n"),
          ("pre_prompt_suffix", "<|im_end|>\n"),
          ("input_prefix", "<|im_start|>user\n"),
          ("input_suffix", "<|im_end|>\n"),
          ("assistant_prefix", "<|im_start|>assistant\n"),
          ("assistant_suffix", "<|im_end|>\n") ],
        [ ("n_ctx", nCtxDef) ],
        [ ("temperature", PVal.f ⟨4, 5, by decide, by decide⟩), ("max_tokens", PVal.i 300),
          ("top_p", PVal.f ⟨19, 20, by decide, by decide⟩), ("top_k", PVal.i 40),
          ("min_p", PVal.f ⟨1, 20, by decide, by decide⟩), ("repeat_penalty", PVal.f ⟨11, 10, by decide, by decide⟩) ]⟩) ]

/-- The `get_loading_parameter_defaults()` from `config.py`. -/
def get_loading_parameter_defaults : ParamsMap :=
  GLOBAL_LOADING_PARAMETERS.map (fun p => (p.1, p.2.default))

/-- The `get_inference_parameter_defaults(model_name)` from `config.py`: global
defaults overlaid with the model's `default_params` when the name is a known,
non-empty model identity. -/
def get_inference_parameter_defaults (model_name : Option String) : ParamsMap :=
  let defaults := GLOBAL_INFERENCE_PARAMETERS.map (fun p => (p.1, p.2.default))
  match model_name with
  | some n =>
    if n = "" then defaults
    else
      match lookupA MODEL_ASSIGNMENTS n with
      | some cfg => pmUpdate defaults cfg.default_params
      | none => defaults
  | none => defaults

/-! ### `llm_manager.py`: the model manager and loading -/

/-- The native `llama_cpp.Llama` handle, abstracted: the identity marker
`hid` distinguishes distinct constructions, and the constructor keyword
arguments of `Llama(...)` in `LLMManager.Load` are recorded as passed. -/
structure LlamaHandle where
  hid : Nat
  model_path : String
  n_gpu_layers : PVal
  n_ctx : PVal
  n_threads : PVal
  use_mlock : PVal
  use_mmap : PVal
  f16_kv : PVal
deriving DecidableEq

/-- The `LLMManager` object: its `ModelConfig`, the optional native handle
(`self.llm`, `None` until a successful load) and the validated loading
parameters recorded on it. -/
structure LLMManager where
  config : ModelConfig
  llm : Option LlamaHandle
  loading_parameters : ParamsMap
deriving DecidableEq

/-- Structured counterpart of the exceptions that can escape
`LLMManager.Load`: unknown model identity, a parameter-validation failure
(re-raised as `"Parameter validation failed: ..."`), or the native engine
constructor failing (the original exception is re-raised, so the native
reason is carried through verbatim). -/
inductive LoadErr where
  | unknownModel (name : String)
  | validationFailed (e : VErr)
  | engineFailed (reason : String)
deriving DecidableEq

/-- The definition used to validate one loading parameter in
`LLMManager.Load`: the global tier first, else the model-specific tier,
else none (unknown key, passed through with a warning). -/
def defFor (cfg : ModelConfig) (n : String) : Option ParamDef :=
  match lookupA GLOBAL_LOADING_PARAMETERS n with
  | some pd => some pd
  | none => lookupA cfg.loading_params n

/-- One iteration of the validation loop in `LLMManager.Load`: a key known to
either tier is validated against its definition (`if param_name in
GLOBAL_LOADING_PARAMETERS ... elif ... in config.loading_params`), an
unknown key passes through unvalidated with a logged warning. -/
def loadStep (cfg : ModelConfig) (n : String) (v : PVal) : Except VErr PVal :=
  match defFor cfg n with
  | some pd => validate_parameter n v pd
  | none => .ok v

/-- The validation loop of `LLMManager.Load`: each entry of the merged map is
processed in iteration order; the first `ValueError` aborts the whole load. -/
def validateLoadingParams (cfg : ModelConfig) : ParamsMap → Except VErr ParamsMap
  | [] => .ok []
  | (n, v) :: rest =>
    match loadStep cfg n v with
    | .error e => .error e
    | .ok v' => (validateLoadingParams cfg rest).map (fun r => (n, v') :: r)

/-- The merged (pre-validation) loading-parameter map built by
`LLMManager.Load`: global defaults, overlaid with the model-specific
defaults, overlaid with the caller's overrides (`dict.update`). -/
def finalLoadingParams (cfg : ModelConfig) (loading_params : Option ParamsMap) :
    ParamsMap :=
  let base := get_loading_parameter_defaults
  let withModel := cfg.loading_params.foldl
    (fun acc p => insertA acc p.1 p.2.default) base
  match loading_params with
  | none => withModel
  | some u => pmUpdate withModel u

/-- The `dict.get(k, d)` on a params map. -/
def getPD (m : ParamsMap) (k : String) (d : PVal) : PVal :=
  (lookupA m k).getD d

/-- The `LLMManager.Load(model_name, loading_params)` from `llm_manager.py`.
The native construction `Llama(...)` is abstracted by the oracle
`engineFail` (`none` = the constructor succeeds and yields a handle with
identity `freshId`; `some reason` = it raises with that reason, which the
method re-raises, leaving the caller without a manager). -/
def LLMManager.Load (model_name : String) (loading_params : Option ParamsMap)
    (engineFail : Option String) (freshId : Nat) : Except LoadErr LLMManager :=
  match lookupA MODEL_ASSIGNMENTS model_name with
  | none => .error (.unknownModel model_name)
  | some config =>
    match validateLoadingParams config (finalLoadingParams config loading_params) with
    | .error e => .error (.validationFailed e)
    | .ok validated =>
      match engineFail with
      | some reason => .error (.engineFailed reason)
      | none =>
        .ok ⟨config,
          some ⟨freshId, config.model_path,
            getPD validated "n_gpu_layers" (PVal.i (-1)),
            getPD validated "n_ctx" (PVal.i 2048),
            getPD validated "n_threads" (PVal.i 8),
            getPD validated "use_mlock" (PVal.b true),
            getPD validated "use_mmap" (PVal.b true),
            getPD validated "f16_kv" (PVal.b true)⟩,
          validated⟩

/-- The loading-parameter set a load request resolves and validates to, when
it resolves at all (known model, all parameters valid).  This is the
"fully resolved parameter set" of the specification. -/
def resolvedLoadingParams (model_name : String) (loading_params : Option ParamsMap) :
    Option ParamsMap :=
  match LLMManager.Load model_name loading_params none 0 with
  | .ok m => some m.loading_parameters
  | .error _ => none

/-- The `LLMManager.validate_inference_parameters` from `llm_manager.py`: every
entry is validated against the global inference registry, unknown keys pass
through with a warning; a `ValueError` propagates (aborting the call). -/
def validate_inference_parameters : ParamsMap → Except VErr ParamsMap
  | [] => .ok []
  | (n, v) :: rest =>
    match lookupA GLOBAL_INFERENCE_PARAMETERS n with
    | some pd =>
      match validate_parameter n v pd with
      | .error e => .error e
      | .ok v' => (validate_inference_parameters rest).map (fun r => (n, v') :: r)
    | none => (validate_inference_parameters rest).map (fun r => (n, v) :: r)

/-! ### `server.py`: the process-wide model slot -/

/-- Observable resource actions of the slot: dropping the previous engine
handle (`llm_manager = None` while it held one), constructing a new native
handle (a successful `Llama(...)` call, tagged with its identity marker),
and invoking the engine's completion call. -/
inductive Event where
  | release
  | construct (hid : Nat)
  | generateCall
deriving DecidableEq

/-- The module-level globals of `server.py`:
`llm_manager`, `current_model`, `current_loading_params`. -/
structure ServerState where
  llm_manager : Option LLMManager
  current_model : Option String
  current_loading_params : Option ParamsMap
deriving DecidableEq

/-- The unload condition of `get_llm_manager`: a manager is present and the
requested identity or the raw caller-supplied loading-parameter mapping
differs (Python `!=`, i.e. value inequality) from the recorded pair. -/
def differs (st : ServerState) (model_name : String)
    (loading_params : Option ParamsMap) : Bool :=
  !(st.current_model == some model_name) ||
  !(optPmEq st.current_loading_params loading_params)

/-- The `get_llm_manager(model_name, loading_params)` from `server.py`, with the
globals threaded as state and resource actions recorded as events.  If a
manager is held and the requested pair differs, the handle is dropped
(`llm_manager = None`); then, if no manager is held, `LLMManager.Load` runs
and on success the globals are updated.  A raise from `Load` propagates,
leaving the partially mutated globals behind. -/
def get_llm_manager (st : ServerState) (model_name : String)
    (loading_params : Option ParamsMap) (engineFail : Option String)
    (freshId : Nat) : Except LoadErr LLMManager × ServerState × List Event :=
  let unload := st.llm_manager.isSome && differs st model_name loading_params
  let st1 : ServerState :=
    if unload then ⟨none, st.current_model, st.current_loading_params⟩ else st
  let ev1 : List Event := if unload then [Event.release] else []
  match st1.llm_manager with
  | some m => (.ok m, st1, ev1)
  | none =>
    match LLMManager.Load model_name loading_params engineFail freshId with
    | .error e => (.error e, st1, ev1)
    | .ok m =>
      (.ok m, ⟨some m, some model_name, loading_params⟩,
        ev1 ++ [Event.construct freshId])

/-- The `/model/status` response payload. -/
structure StatusResp where
  loaded : Bool
  current_model : Option String
  context_length : Option PVal
  loading_parameters : Option ParamsMap
deriving DecidableEq

/-- The `context_length` computation of `model_status`:
`current_loading_params and "n_ctx" in current_loading_params`
(an empty dict is falsy). -/
def statusCtx : Option ParamsMap → Option PVal
  | none => none
  | some lp => if lp.isEmpty then none else lookupA lp "n_ctx"

/-- The `/model/status` handler from `server.py`. -/
def model_status (st : ServerState) : StatusResp :=
  ⟨st.llm_manager.isSome, st.current_model,
    statusCtx st.current_loading_params, st.current_loading_params⟩

/-! ### The streaming generation pipeline -/

/-- Rendering of a structured validation error as the `str(e)` of the
corresponding `ValueError` (the value/bound details are elided). -/
def verrText : VErr → List Char
  | .typeErr n => ("Invalid value for " ++ n).data
  | .rangeBelow n => (n ++ " value is below minimum").data
  | .rangeAbove n => (n ++ " value is above maximum").data

/-- One dict yielded by `LLMManager.generate_stream_raw`: either
`{"token": ..., "text": <stripped accumulated text>}` or `{"error": ...}`. -/
inductive Chunk where
  | text (t : List Char)
  | err (e : List Char)
deriving DecidableEq

/-- The engine side of one streaming `create_completion(..., stream=True)`
call: the token strings the iterator yields, and an optional exception raised
mid-iteration after the listed tokens. -/
structure EngineRun where
  tokens : List (List Char)
  midErr : Option (List Char)
deriving DecidableEq

/-- The chunk loop of `generate_stream_raw`: each engine token is appended to
`collected_text`, and `collected_text.strip()` is yielded. -/
def streamChunks (acc : List Char) : List (List Char) → List Chunk
  | [] => []
  | t :: ts => Chunk.text (pstrip (acc ++ t)) :: streamChunks (acc ++ t) ts

/-- The trailing chunk of `generate_stream_raw` when the engine raises
mid-stream: a single `{"error": ...}` dict. -/
def tailErrChunks : Option (List Char) → List Chunk
  | none => []
  | some e => [Chunk.err e]

/-- The `LLMManager.generate_stream_raw` from `llm_manager.py`.  Raises
(`.error`) when no model is loaded; otherwise merges the model's inference
defaults with the caller's overrides and validates them — a validation error
becomes a single `{"error"}` chunk without touching the engine — then drives
the engine (abstracted by `er`), yielding one stripped-text chunk per token
and an error chunk if the engine raises.  The returned events record whether
`create_completion` was invoked. -/
def LLMManager.generate_stream_raw (m : LLMManager) (_prompt _sysp : List Char)
    (kwargs : ParamsMap) (er : EngineRun) :
    Except (List Char) (List Chunk × List Event) :=
  match m.llm with
  | none => .error ("Model not loaded".data)
  | some _ =>
    match validate_inference_parameters
        (pmUpdate (get_inference_parameter_defaults (some m.config.name)) kwargs) with
    | .error e => .ok ([Chunk.err (verrText e)], [])
    | .ok _ =>
      .ok (streamChunks [] er.tokens ++ tailErrChunks er.midErr,
        [Event.generateCall])

/-- One NDJSON line written by `query_llm_stream` in `server.py`. -/
inductive Frame where
  | processing (ptext : List Char)
  | generating (ptext : List Char)
  | complete (response : List Char)
  | error (emsg : List Char)
deriving DecidableEq

/-- The `partial` / `response` text a frame carries, if any. -/
def textOf : Frame → Option (List Char)
  | .processing t => some t
  | .generating t => some t
  | .complete t => some t
  | .error _ => none

/-- Is the frame a terminal (`complete` or `error`) frame? -/
def isTerminal : Frame → Bool
  | .complete _ => true
  | .error _ => true
  | _ => false

/-- The chunk-consuming loop of `query_llm_stream`: an error chunk yields one
`error` frame and returns; a text chunk updates `partial_response` and yields
a `generating` frame; after the last chunk a single `complete` frame carries
the final `partial_response`. -/
def consumeChunks (pr : List Char) : List Chunk → List Frame
  | [] => [Frame.complete pr]
  | Chunk.err e :: _ => [Frame.error e]
  | Chunk.text t :: rest => Frame.generating t :: consumeChunks t rest

/-- The `"Error generating streaming response: " + str(e)`. -/
def streamErrMsg (e : List Char) : List Char :=
  "Error generating streaming response: ".data ++ e

/-- Rendering of a `LoadErr` as the `str(e)` of the propagated exception. -/
def loadErrText : LoadErr → List Char
  | .unknownModel n => ("Unknown model: " ++ n).data
  | .validationFailed e => "Parameter validation failed: ".data ++ verrText e
  | .engineFailed reason => reason.data

/-- The `query_llm_stream` from `server.py`, producing the full ordered frame
sequence of one streaming request.  The manager is acquired with the current
global loading parameters; an exception there yields a single `error` frame
(before the `processing` frame is ever emitted).  Otherwise a `processing`
frame is emitted immediately, then the chunk stream is consumed; a raise on
first iteration (model not loaded) is caught and becomes the terminal
`error` frame. -/
def query_llm_stream (st : ServerState) (prompt sysp : List Char)
    (model_name : String) (inference_params : ParamsMap)
    (engineFail : Option String) (freshId : Nat) (er : EngineRun) :
    List Frame × ServerState × List Event :=
  match get_llm_manager st model_name st.current_loading_params engineFail freshId with
  | (.error e, st', ev) => ([Frame.error (streamErrMsg (loadErrText e))], st', ev)
  | (.ok m, st', ev) =>
    match m.generate_stream_raw prompt sysp inference_params er with
    | .error e => ([Frame.processing [], Frame.error (streamErrMsg e)], st', ev)
    | .ok (chunks, ev2) =>
      (Frame.processing [] :: consumeChunks [] chunks, st', ev ++ ev2)

/-- The `LLMManager.generate_raw` from `llm_manager.py` (non-streaming).  Raises
when no model is loaded or when the merged inference parameters fail
validation; an engine exception is folded into the returned string as
`"Error: ..."`; on success the engine's text is returned stripped.  The
`nr` oracle stands for the non-streaming `create_completion` call. -/
def LLMManager.generate_raw (m : LLMManager) (_prompt _sysp : List Char)
    (kwargs : ParamsMap) (nr : Except (List Char) (List Char)) :
    Except (List Char) (List Char × List Event) :=
  match m.llm with
  | none => .error ("Model not loaded".data)
  | some _ =>
    match validate_inference_parameters
        (pmUpdate (get_inference_parameter_defaults (some m.config.name)) kwargs) with
    | .error e => .error (verrText e)
    | .ok _ =>
      match nr with
      | .error ex => .ok ("Error: ".data ++ ex, [Event.generateCall])
      | .ok txt => .ok (pstrip txt, [Event.generateCall])

/-- The `query_llm` from `server.py` (non-streaming): any exception is folded
into the response string as `"Error: ..."`. -/
def query_llm (st : ServerState) (prompt sysp : List Char) (model_name : String)
    (inference_params : ParamsMap) (engineFail : Option String) (freshId : Nat)
    (nr : Except (List Char) (List Char)) :
    List Char × ServerState × List Event :=
  match get_llm_manager st model_name st.current_loading_params engineFail freshId with
  | (.error e, st', ev) => ("Error: ".data ++ loadErrText e, st', ev)
  | (.ok m, st', ev) =>
    match m.generate_raw prompt sysp inference_params nr with
    | .error e => ("Error: ".data ++ e, st', ev)
    | .ok (txt, ev2) => (txt, st', ev ++ ev2)

/-! ### The `/query` handler -/

/-- One step of the inference-parameter extraction loop in `process_query`:
if the request body carries the registry key, validate it; an invalid value
is skipped (logged as a warning) and extraction continues. -/
def extractStep (data : ParamsMap) (acc : ParamsMap) (p : String × ParamDef) :
    ParamsMap :=
  match lookupA data p.1 with
  | none => acc
  | some v =>
    match validate_parameter p.1 v p.2 with
    | .ok v' => insertA acc p.1 v'
    | .error _ => acc

/-- The inference-parameter extraction of `process_query` (`server.py`,
lines 225–236): iterate over the global inference registry, keep valid
overrides, skip-and-warn on invalid ones. -/
def extract_inference_params (data : ParamsMap) : ParamsMap :=
  GLOBAL_INFERENCE_PARAMETERS.foldl (extractStep data) []

/-- The fields of a `/query` request body that `process_query` reads.
`params` is the body viewed as a key-value map for parameter extraction. -/
structure QueryData where
  prompt : List Char
  system_prompt : List Char
  model : Option String
  stream : Option Bool
  params : ParamsMap
deriving DecidableEq

/-- The response of `process_query`: a 400 error, an NDJSON frame stream, or
a single JSON `{response}` object. -/
inductive QueryResp where
  | badRequest (emsg : List Char)
  | streamResp (frames : List Frame)
  | jsonResp (response : List Char)
deriving DecidableEq

/-- The `current_model or 'MyMainLLM'` (Python truthiness: `None` and the empty
string both fall back). -/
def defaultModelName (cur : Option String) : String :=
  match cur with
  | some s => if s = "" then "MyMainLLM" else s
  | none => "MyMainLLM"

/-- The `process_query` from `server.py`: extract and validate the per-request
inference overrides (skipping invalid ones), reject an empty prompt with a
400 before anything touches the slot or the engine, then dispatch to the
streaming or non-streaming pipeline. -/
def process_query (st : ServerState) (d : QueryData) (engineFail : Option String)
    (freshId : Nat) (er : EngineRun) (nr : Except (List Char) (List Char)) :
    QueryResp × ServerState × List Event :=
  let inference_params := extract_inference_params d.params
  if d.prompt = [] then
    (QueryResp.badRequest ("No prompt provided".data), st, [])
  else
    let model_name := d.model.getD (defaultModelName st.current_model)
    if d.stream.getD true then
      let r := query_llm_stream st d.prompt d.system_prompt model_name
        inference_params engineFail freshId er
      (QueryResp.streamResp r.1, r.2.1, r.2.2)
    else
      let r := query_llm st d.prompt d.system_prompt model_name
        inference_params engineFail freshId nr
      (QueryResp.jsonResp r.1, r.2.1, r.2.2)

/-! ### The context accountant -/

/-- The `LLMManager.count_tokens` from `llm_manager.py`: with no model loaded the
estimate `len(text) // 3` is used; with a model, the tokenizer (abstracted by
the oracle `tokRes`; `none` models a tokenizer exception) gives the count,
falling back to the same estimate. -/
def LLMManager.count_tokens (m : LLMManager) (tokRes : Option (List Nat))
    (text : List Char) : Nat :=
  match m.llm with
  | none => text.length / 3
  | some _ =>
    match tokRes with
    | some toks => toks.length
    | none => text.length / 3

/-- The dict returned by `LLMManager.get_context_usage`. -/
structure ContextUsage where
  token_count : Nat
  max_context : ℚ
  usage_percentage : ℚ
  remaining_tokens : ℚ
deriving DecidableEq

/-- A parameter value read as a Python number (validated loading parameters
are always numeric where this is used). -/
def pvalQ : PVal → ℚ
  | .i z => (z : ℚ)
  | .f q => q
  | .b v => if v then 1 else 0
  | .s _ => 0

/-- Round-half-to-even to an integer, the rounding Python's `round` applies.
The fractional part `q - ⌊q⌋` equals `r / den` for `r = num - ⌊q⌋ * den`, so
it is compared against one half by comparing `2 * r` with `den`. -/
def roundHalfEven (q : ℚ) : Int :=
  let n := ratFloor q
  let r : Int := q.num - n * (q.den : Int)
  if 2 * r < (q.den : Int) then n
  else if (q.den : Int) < 2 * r then n + 1
  else if n % 2 = 0 then n else n + 1

/-- Python `round(x, 1)` on an exact rational. -/
def pyRound1 (q : ℚ) : ℚ := ((roundHalfEven (q * 10) : ℤ) : ℚ) / 10

/-- The `LLMManager.get_context_usage` from `llm_manager.py`: token count, max
context (`llm.n_ctx()` when loaded, else the recorded `n_ctx` loading
parameter with default 2048), percentage rounded to one decimal, and the
unclamped remaining-token difference. -/
def LLMManager.get_context_usage (m : LLMManager) (tokRes : Option (List Nat))
    (text : List Char) : ContextUsage :=
  let tc := m.count_tokens tokRes text
  let mc : ℚ :=
    match m.llm with
    | some h => pvalQ h.n_ctx
    | none => pvalQ ((lookupA m.loading_parameters "n_ctx").getD (PVal.i 2048))
  let up : ℚ := if 0 < mc then ((tc : ℚ) / mc) * 100 else 0
  ⟨tc, mc, pyRound1 up, mc - (tc : ℚ)⟩

/-- The estimation branch of the `/count_tokens` handler in `server.py`: a
temporary manager without a loaded model counts `len(text) // 3`, and the
usage statistics are computed from the static `max_context_window`. -/
def count_tokens_estimate (model_name : String) (text : List Char) :
    Except (List Char) ContextUsage :=
  match lookupA MODEL_ASSIGNMENTS model_name with
  | none => .error ("Unknown model".data)
  | some config =>
    let token_count := text.length / 3
    let max_context : ℚ := (config.max_context_window : ℚ)
    let up : ℚ := if 0 < max_context then ((token_count : ℚ) / max_context) * 100 else 0
    .ok ⟨token_count, max_context, pyRound1 up, max_context - (token_count : ℚ)⟩

/-- The `/count_tokens` handler from `server.py`: 400 on empty text; the
loaded manager's accountant when the requested model is the loaded one, else
the static estimate. -/
def count_tokens_route (st : ServerState) (text : List Char)
    (modelReq : Option String) (tokRes : Option (List Nat)) :
    Except (List Char) ContextUsage :=
  if text = [] then .error ("No text provided".data)
  else
    let model_name := modelReq.getD (defaultModelName st.current_model)
    match st.llm_manager with
    | some m =>
      if st.current_model = some model_name then
        .ok (m.get_context_usage tokRes text)
      else count_tokens_estimate model_name text
    | none => count_tokens_estimate model_name text

/-! ### Specification-side predicates -/

instance {ε α : Type} [DecidableEq ε] [DecidableEq α] : DecidableEq (Except ε α) :=
  fun x y =>
    match x, y with
    | .ok a, .ok b =>
      if h : a = b then .isTrue (by rw [h]) else .isFalse (by simp [h])
    | .error e, .error e' =>
      if h : e = e' then .isTrue (by rw [h]) else .isFalse (by simp [h])
    | .ok _, .error _ => .isFalse (by simp)
    | .error _, .ok _ => .isFalse (by simp)

/-- The prefix-monotonicity relation between two frames: whatever non-empty
text the earlier frame carries, the later frame's text extends it. -/
def frameStep (fr g : Frame) : Prop :=
  ∀ a, textOf fr = some a → a ≠ [] →
    ∀ bt, textOf g = some bt → ∃ u, bt = a ++ u

/-- Every later frame's text extends every earlier frame's non-empty text. -/
def monoFrames (fs : List Frame) : Prop := List.Pairwise frameStep fs

/-- The sequence contains exactly one terminal frame, and it is the last. -/
def singleTerminal (fs : List Frame) : Prop :=
  ∃ pre t, fs = pre ++ [t] ∧ isTerminal t = true ∧
    ∀ fr ∈ pre, isTerminal fr = false

/-- The validation outcome of one entry of the merged loading-parameter map,
for locating "the first parameter that fails validation". -/
def errOf (cfg : ModelConfig) (p : String × PVal) : Option VErr :=
  match loadStep cfg p.1 p.2 with
  | .error e => some e
  | .ok _ => none

/-- The first validation error among the merged loading parameters, in
iteration order. -/
def firstVErr (cfg : ModelConfig) (ps : ParamsMap) : Option VErr :=
  ps.findSome? (errOf cfg)

/-- Claim C2 as stated by the specification: `get_llm_manager` compares the
requested pair against the active one over the *fully resolved* parameter
set, so a request for the same identity whose overrides resolve to the very
parameter set already active must not release the held handle. -/
def comparisonByResolvedParams : Prop :=
  ∀ st model_name lp engineFail freshId m,
    st.llm_manager = some m →
    st.current_model = some model_name →
    resolvedLoadingParams model_name lp = some m.loading_parameters →
    (get_llm_manager st model_name lp engineFail freshId).2.2 = []

/-- Numeric coercion as `validate_parameter` performs it for a bounded
parameter kind: the coerced value together with its numeric magnitude.
Boolean definitions coerce no number (their branch returns early). -/
def coerceNum : PType → PVal → Option (PVal × ℚ)
  | .integer, v => (toInt? v).map (fun z => (PVal.i z, (z : ℚ)))
  | .float, v => (toFloat? v).map (fun q => (PVal.f q, q))
  | .boolean, _ => none

/-- Every parameter definition the program declares, over both global tiers
and the per-model loading overrides. -/
def allParamDefs : List (String × ParamDef) :=
  GLOBAL_LOADING_PARAMETERS ++ GLOBAL_INFERENCE_PARAMETERS ++
    (MODEL_ASSIGNMENTS.map (fun p => p.2.loading_params)).flatten

/-! ### Helper lemmas: stripping and prefix extension -/

theorem dropWhile_append_of_ne_nil {p : Char → Bool} :
    ∀ (l₁ l₂ : List Char), l₁.dropWhile p ≠ [] →
      (l₁ ++ l₂).dropWhile p = l₁.dropWhile p ++ l₂ := by
  intro l₁
  induction l₁ with
  | nil => intro l₂ h; simp [List.dropWhile] at h
  | cons c t ih =>
    intro l₂ h
    cases hc : p c with
    | true =>
      rw [List.dropWhile_cons_of_pos hc] at h
      rw [List.cons_append, List.dropWhile_cons_of_pos hc,
        List.dropWhile_cons_of_pos hc]
      exact ih l₂ h
    | false =>
      rw [List.cons_append, List.dropWhile_cons_of_neg (by simp [hc]),
        List.dropWhile_cons_of_neg (by simp [hc]), List.cons_append]

theorem dropWhile_append_of_nil {p : Char → Bool} :
    ∀ (l₁ l₂ : List Char), l₁.dropWhile p = [] →
      (l₁ ++ l₂).dropWhile p = l₂.dropWhile p := by
  intro l₁
  induction l₁ with
  | nil => intro l₂ _; simp
  | cons c t ih =>
    intro l₂ h
    cases hc : p c with
    | true =>
      rw [List.dropWhile_cons_of_pos hc] at h
      rw [List.cons_append, List.dropWhile_cons_of_pos hc]
      exact ih l₂ h
    | false =>
      rw [List.dropWhile_cons_of_neg (by simp [hc])] at h
      simp at h

theorem exists_takeWhile_append_dropWhile {p : Char → Bool} :
    ∀ (l : List Char), ∃ t, l = t ++ l.dropWhile p := by
  intro l
  induction l with
  | nil => exact ⟨[], rfl⟩
  | cons c t ih =>
    cases hc : p c with
    | true =>
      obtain ⟨u, hu⟩ := ih
      exact ⟨c :: u, by simp [List.dropWhile, hc]; exact hu⟩
    | false => exact ⟨[], by simp [List.dropWhile, hc]⟩

/-- The `rstrip` only removes characters from the end. -/
theorem rstrip_extends (l : List Char) : ∃ u, l = rstrip l ++ u := by
  obtain ⟨t, ht⟩ := exists_takeWhile_append_dropWhile (p := pyIsSpace) l.reverse
  refine ⟨t.reverse, ?_⟩
  unfold rstrip
  calc l = l.reverse.reverse := by simp
    _ = (t ++ l.reverse.dropWhile pyIsSpace).reverse := by rw [← ht]
    _ = (l.reverse.dropWhile pyIsSpace).reverse ++ t.reverse := by
        simp [List.reverse_append]

/-- Appending on the right can only extend the `rstrip`-image forward. -/
theorem rstrip_append_extend (l₁ l₂ : List Char) :
    ∃ u, rstrip (l₁ ++ l₂) = rstrip l₁ ++ u := by
  by_cases h : l₂.reverse.dropWhile pyIsSpace = []
  · refine ⟨[], ?_⟩
    unfold rstrip
    rw [List.reverse_append, dropWhile_append_of_nil _ _ h, List.append_nil]
  · obtain ⟨v, hv⟩ := rstrip_extends l₁
    refine ⟨v ++ (l₂.reverse.dropWhile pyIsSpace).reverse, ?_⟩
    unfold rstrip
    rw [List.reverse_append, dropWhile_append_of_ne_nil _ _ h,
      List.reverse_append]
    conv_lhs => rw [hv]
    unfold rstrip
    rw [List.reverse_reverse, List.append_assoc]

/-- The central trimming fact behind frame monotonicity: extending the raw
accumulated text on the right extends its stripped form on the right. -/
theorem pstrip_append_extend (s u : List Char) :
    ∃ w, pstrip (s ++ u) = pstrip s ++ w := by
  by_cases h : lstrip s = []
  · refine ⟨pstrip (s ++ u), ?_⟩
    have hs : pstrip s = [] := by
      unfold pstrip
      rw [h]
      rfl
    rw [hs, List.nil_append]
  · unfold pstrip lstrip at h ⊢
    rw [dropWhile_append_of_ne_nil _ _ h]
    exact rstrip_append_extend _ _

/-! ### Helper lemmas: the streaming frame sequence -/

theorem singleTerminal_cons {fr : Frame} {fs : List Frame}
    (h : singleTerminal fs) (hf : isTerminal fr = false) :
    singleTerminal (fr :: fs) := by
  obtain ⟨pre, t, heq, ht, hpre⟩ := h
  refine ⟨fr :: pre, t, by rw [heq, List.cons_append], ht, ?_⟩
  intro g hg
  rcases List.mem_cons.mp hg with rfl | hm
  · exact hf
  · exact hpre g hm

theorem consumeChunks_singleTerminal :
    ∀ (cs : List Chunk) (pr : List Char), singleTerminal (consumeChunks pr cs) := by
  intro cs
  induction cs with
  | nil =>
    intro pr
    exact ⟨[], Frame.complete pr, rfl, rfl, by simp⟩
  | cons c rest ih =>
    intro pr
    cases c with
    | err e => exact ⟨[], Frame.error e, rfl, rfl, by simp⟩
    | text t =>
      have := @singleTerminal_cons (Frame.generating t) _ (ih t) rfl
      exact this

theorem tailErrChunks_allErr (o : Option (List Char)) :
    ∀ c ∈ tailErrChunks o, ∃ e, c = Chunk.err e := by
  cases o with
  | none => intro c hc; simp [tailErrChunks] at hc
  | some e =>
    intro c hc
    simp [tailErrChunks] at hc
    exact ⟨e, hc⟩

theorem consumeChunks_texts_extend :
    ∀ (ts : List (List Char)) (tail : List Chunk) (acc : List Char),
      (∀ c ∈ tail, ∃ e, c = Chunk.err e) →
      ∀ fr ∈ consumeChunks (pstrip acc) (streamChunks acc ts ++ tail),
        ∀ bt, textOf fr = some bt → ∃ u, bt = pstrip acc ++ u := by
  intro ts
  induction ts with
  | nil =>
    intro tail acc htail fr hfr bt hbt
    cases tail with
    | nil =>
      simp only [streamChunks, List.nil_append, consumeChunks] at hfr
      rcases List.mem_singleton.mp hfr with rfl
      simp only [textOf, Option.some.injEq] at hbt
      exact ⟨[], by rw [← hbt, List.append_nil]⟩
    | cons c rest =>
      obtain ⟨e, rfl⟩ := htail c (List.mem_cons_self c rest)
      simp only [streamChunks, List.nil_append, consumeChunks] at hfr
      rcases List.mem_singleton.mp hfr with rfl
      simp [textOf] at hbt
  | cons t ts ih =>
    intro tail acc htail fr hfr bt hbt
    simp only [streamChunks, List.cons_append, consumeChunks] at hfr
    rcases List.mem_cons.mp hfr with rfl | hmem
    · simp only [textOf, Option.some.injEq] at hbt
      obtain ⟨w, hw⟩ := pstrip_append_extend acc t
      exact ⟨w, by rw [← hbt, hw]⟩
    · obtain ⟨u, hu⟩ := ih tail (acc ++ t) htail fr hmem bt hbt
      obtain ⟨w, hw⟩ := pstrip_append_extend acc t
      exact ⟨w ++ u, by rw [hu, hw, List.append_assoc]⟩

theorem consumeChunks_mono :
    ∀ (ts : List (List Char)) (tail : List Chunk) (acc : List Char),
      (∀ c ∈ tail, ∃ e, c = Chunk.err e) →
      monoFrames (consumeChunks (pstrip acc) (streamChunks acc ts ++ tail)) := by
  intro ts
  induction ts with
  | nil =>
    intro tail acc htail
    cases tail with
    | nil =>
      simp only [streamChunks, List.nil_append, consumeChunks, monoFrames]
      simp
    | cons c rest =>
      obtain ⟨e, rfl⟩ := htail c (List.mem_cons_self c rest)
      simp only [streamChunks, List.nil_append, consumeChunks, monoFrames]
      simp
  | cons t ts ih =>
    intro tail acc htail
    simp only [streamChunks, List.cons_append, consumeChunks, monoFrames]
    refine List.Pairwise.cons ?_ (ih tail (acc ++ t) htail)
    intro g hg a ha _hne bt hbt
    simp only [textOf, Option.some.injEq] at ha
    obtain ⟨u, hu⟩ := consumeChunks_texts_extend ts tail (acc ++ t) htail g hg bt hbt
    exact ⟨u, by rw [hu, ha]⟩

/-- The frame properties for a normally-opened stream: a leading `processing`
frame, one stripped-text frame per token (over any all-error trailing chunk
list), a single trailing terminal. -/
theorem frames_ok (ts : List (List Char)) (tail : List Chunk)
    (htail : ∀ c ∈ tail, ∃ e, c = Chunk.err e) :
    monoFrames (Frame.processing [] :: consumeChunks [] (streamChunks [] ts ++ tail)) ∧
    singleTerminal (Frame.processing [] :: consumeChunks [] (streamChunks [] ts ++ tail)) := by
  constructor
  · refine List.Pairwise.cons ?_ ?_
    · intro g _hg a ha hne bt _hbt
      simp only [textOf, Option.some.injEq] at ha
      exact absurd ha.symm hne
    · exact consumeChunks_mono ts tail [] htail
  · exact singleTerminal_cons (consumeChunks_singleTerminal _ _) rfl

theorem twoFrame_ok (e : List Char) :
    monoFrames [Frame.processing [], Frame.error e] ∧
    singleTerminal [Frame.processing [], Frame.error e] := by
  constructor
  · refine List.Pairwise.cons ?_ ?_
    · intro g _hg a ha hne bt _hbt
      simp only [textOf, Option.some.injEq] at ha
      exact absurd ha.symm hne
    · simp [monoFrames]
  · exact ⟨[Frame.processing []], Frame.error e, rfl, rfl, by
      intro g hg
      rcases List.mem_singleton.mp hg with rfl
      rfl⟩

theorem oneErrFrame_ok (e : List Char) :
    monoFrames [Frame.error e] ∧ singleTerminal [Frame.error e] := by
  exact ⟨by simp [monoFrames], ⟨[], Frame.error e, rfl, rfl, by simp⟩⟩

/-- Claim C1: for every streaming generation request, the emitted frame
sequence is prefix-monotone after trimming — each later frame's
`partial`/`response` text extends each earlier frame's non-empty text — and
contains exactly one terminal (`complete` or `error`) frame, in final
position, with no frames after it. -/
theorem stream_frames_mono_single_terminal
    (st : ServerState) (prompt sysp : List Char) (model_name : String)
    (inference_params : ParamsMap) (engineFail : Option String) (freshId : Nat)
    (er : EngineRun) :
    monoFrames (query_llm_stream st prompt sysp model_name inference_params
      engineFail freshId er).1 ∧
    singleTerminal (query_llm_stream st prompt sysp model_name inference_params
      engineFail freshId er).1 := by
  unfold query_llm_stream
  rcases hG : get_llm_manager st model_name st.current_loading_params engineFail freshId
    with ⟨res, st', ev⟩
  cases res with
  | error e => exact oneErrFrame_ok _
  | ok m =>
    cases hllm : m.llm with
    | none =>
      simp only [LLMManager.generate_stream_raw, hllm]
      exact twoFrame_ok _
    | some h =>
      cases hv : validate_inference_parameters
          (pmUpdate (get_inference_parameter_defaults (some m.config.name))
            inference_params) with
      | error e =>
        simp only [LLMManager.generate_stream_raw, hllm, hv]
        exact frames_ok [] (tailErrChunks (some (verrText e)))
          (tailErrChunks_allErr _)
      | ok vp =>
        simp only [LLMManager.generate_stream_raw, hllm, hv]
        exact frames_ok er.tokens (tailErrChunks er.midErr)
          (tailErrChunks_allErr _)

/-- Witness for C1 at a concrete request: an empty slot, two engine tokens. -/
theorem stream_frames_mono_single_terminal_witness :
    monoFrames (query_llm_stream ⟨none, none, none⟩ "hi".data [] "MyMainLLM" []
      none 1 ⟨["he".data, "llo ".data], none⟩).1 ∧
    singleTerminal (query_llm_stream ⟨none, none, none⟩ "hi".data [] "MyMainLLM" []
      none 1 ⟨["he".data, "llo ".data], none⟩).1 :=
  stream_frames_mono_single_terminal ⟨none, none, none⟩ "hi".data [] "MyMainLLM"
    [] none 1 ⟨["he".data, "llo ".data], none⟩

/-! ### Concrete states used by counterexamples and witnesses -/

/-- Placeholder manager for impossible `match` fallbacks in concrete values. -/
def junkManager : LLMManager := ⟨⟨"", "", 0, [], [], []⟩, none, []⟩

/-- The manager produced by loading `MyMainLLM` with no overrides. -/
def mgrMainDefault : LLMManager :=
  match LLMManager.Load "MyMainLLM" none none 1 with
  | .ok m => m
  | .error _ => junkManager

/-- The slot state after `get_llm_manager("MyMainLLM")` with no overrides. -/
def stMainDefault : ServerState := ⟨some mgrMainDefault, some "MyMainLLM", none⟩

/-- Claim C2, counterexample: `get_llm_manager` does **not** compare the
requested pair over the fully resolved parameter set.  Reloading
`MyMainLLM` with the explicit override `{n_ctx: 2048}` resolves to exactly
the parameter set already active (the model-specific default is 2048), yet
the slot releases the held handle and reconstructs, because the comparison
uses the raw caller-supplied mapping (`None` vs. `{n_ctx: 2048}`). -/
theorem slot_comparison_not_by_resolved_params : ¬ comparisonByResolvedParams := by
  intro h
  have hc := h stMainDefault "MyMainLLM" (some [("n_ctx", PVal.i 2048)]) none 2
    mgrMainDefault rfl rfl (by decide)
  exact absurd hc (by decide)

/-- Claim C2 (amended): the requested `(identity, loadingParams)` pair is
compared against the active pair by value equality over the **raw
caller-supplied** loading-parameter mapping (not the fully resolved set).
Whenever that identity or raw mapping differs while a handle is held, the
prior handle is released exactly once, before any new construction — the
trace is `[release]` on a failed load or `[release, construct]` on success,
so there is never a state with two live handles; when the raw pair is
equal, the held handle is returned untouched. -/
theorem slot_swap_release_once
    (st : ServerState) (model_name : String) (lp : Option ParamsMap)
    (engineFail : Option String) (freshId : Nat) (m : LLMManager)
    (hm : st.llm_manager = some m) :
    (differs st model_name lp = true →
      ((∃ e, get_llm_manager st model_name lp engineFail freshId =
          (.error e, ⟨none, st.current_model, st.current_loading_params⟩,
            [Event.release])) ∨
       (∃ m', get_llm_manager st model_name lp engineFail freshId =
          (.ok m', ⟨some m', some model_name, lp⟩,
            [Event.release, Event.construct freshId])))) ∧
    (differs st model_name lp = false →
      get_llm_manager st model_name lp engineFail freshId = (.ok m, st, [])) := by
  constructor
  · intro hd
    cases hL : LLMManager.Load model_name lp engineFail freshId with
    | error e =>
      left
      exact ⟨e, by simp [get_llm_manager, hm, hd, hL]⟩
    | ok m' =>
      right
      exact ⟨m', by simp [get_llm_manager, hm, hd, hL]⟩
  · intro hd
    simp [get_llm_manager, hm, hd]

/-- Witness for the amended C2: swapping the default-loaded `MyMainLLM` slot
to `MySecondLLM` releases once and then constructs. -/
theorem slot_swap_release_once_witness :
    (∃ e, get_llm_manager stMainDefault "MySecondLLM" none none 2 =
        (.error e, ⟨none, stMainDefault.current_model,
          stMainDefault.current_loading_params⟩, [Event.release])) ∨
    (∃ m', get_llm_manager stMainDefault "MySecondLLM" none none 2 =
        (.ok m', ⟨some m', some "MySecondLLM", none⟩,
          [Event.release, Event.construct 2])) :=
  (slot_swap_release_once stMainDefault "MySecondLLM" none none 2 mgrMainDefault
    rfl).1 (by decide)

/-- Claim C3: on a loaded slot, acquiring again with an identical
`(identity, loadingParams)` pair returns the existing manager object with
the state untouched and no release or construction — idempotent reuse. -/
theorem acquire_idempotent_on_equal_pair
    (st : ServerState) (model_name : String) (lp : Option ParamsMap)
    (engineFail : Option String) (freshId : Nat) (m : LLMManager)
    (hm : st.llm_manager = some m)
    (hname : st.current_model = some model_name)
    (hlp : optPmEq st.current_loading_params lp = true) :
    get_llm_manager st model_name lp engineFail freshId = (.ok m, st, []) := by
  have hd : differs st model_name lp = false := by
    simp [differs, hname, hlp]
  simp [get_llm_manager, hm, hd]

/-- The explicit overrides used by the C3 witness. -/
def lpCtx4096 : Option ParamsMap := some [("n_ctx", PVal.i 4096)]

/-- The slot state after loading `MyMainLLM` with `{n_ctx: 4096}`. -/
def stCtx4096 : ServerState :=
  (get_llm_manager ⟨none, none, none⟩ "MyMainLLM" lpCtx4096 none 7).2.1

/-- The manager held by `stCtx4096`. -/
def mgrCtx4096 : LLMManager :=
  match stCtx4096.llm_manager with
  | some m => m
  | none => junkManager

/-- Witness for C3: a second acquire of `MyMainLLM` with the identical
`{n_ctx: 4096}` pair returns the handle loaded by the first acquire. -/
theorem acquire_idempotent_on_equal_pair_witness :
    get_llm_manager stCtx4096 "MyMainLLM" lpCtx4096 none 9 =
      (.ok mgrCtx4096, stCtx4096, []) :=
  acquire_idempotent_on_equal_pair stCtx4096 "MyMainLLM" lpCtx4096 none 9
    mgrCtx4096 rfl rfl (by decide)

/-- If a load request resolves (known model, parameters valid), then the same
request with a failing engine constructor raises exactly the engine failure,
carrying the native reason. -/
theorem Load_engineFail (model_name : String) (lp : Option ParamsMap)
    (reason : String) (freshId : Nat)
    (h : (resolvedLoadingParams model_name lp).isSome = true) :
    LLMManager.Load model_name lp (some reason) freshId =
      .error (.engineFailed reason) := by
  unfold resolvedLoadingParams at h
  unfold LLMManager.Load at h ⊢
  cases hc : lookupA MODEL_ASSIGNMENTS model_name with
  | none => rw [hc] at h; simp at h
  | some cfg =>
    rw [hc] at h
    simp only [] at h ⊢
    cases hv : validateLoadingParams cfg (finalLoadingParams cfg lp) with
    | error e => rw [hv] at h; simp at h
    | ok validated => rfl

/-- Claim C4: when engine construction fails on a load that actually reaches
the constructor (the slot was empty or being swapped, the model known and
its parameters valid), the error carrying the native reason is surfaced to
the caller and the slot is left without an engine handle. -/
theorem load_failure_leaves_slot_empty
    (st : ServerState) (model_name : String) (lp : Option ParamsMap)
    (reason : String) (freshId : Nat)
    (hfree : st.llm_manager = none ∨ differs st model_name lp = true)
    (hres : (resolvedLoadingParams model_name lp).isSome = true) :
    (get_llm_manager st model_name lp (some reason) freshId).1 =
      .error (.engineFailed reason) ∧
    (get_llm_manager st model_name lp (some reason) freshId).2.1.llm_manager =
      none := by
  have hL := Load_engineFail model_name lp reason freshId hres
  rcases hfree with hnone | hdiff
  · constructor <;> simp [get_llm_manager, hnone, hL]
  · cases hm : st.llm_manager with
    | none => constructor <;> simp [get_llm_manager, hm, hL]
    | some m => constructor <;> simp [get_llm_manager, hm, hdiff, hL]

/-- Witness for C4: loading `MyMainLLM` into an empty slot while the native
constructor raises. -/
theorem load_failure_leaves_slot_empty_witness :
    (get_llm_manager ⟨none, none, none⟩ "MyMainLLM" none (some "cuda OOM") 1).1 =
      .error (.engineFailed "cuda OOM") ∧
    (get_llm_manager ⟨none, none, none⟩ "MyMainLLM" none
      (some "cuda OOM") 1).2.1.llm_manager = none :=
  load_failure_leaves_slot_empty ⟨none, none, none⟩ "MyMainLLM" none "cuda OOM" 1
    (Or.inl rfl) (by decide)

/-- Claim C10: when engine construction fails during a swap (the old handle
already dropped), the slot keeps the previous identity and loading
parameters while holding no manager, so `/model/status` then reports
`loaded: false` together with the stale non-null model identity and the
stale loading parameters. -/
theorem failed_swap_stale_status
    (st : ServerState) (model_name : String) (lp : Option ParamsMap)
    (reason : String) (freshId : Nat) (m : LLMManager) (oldName : String)
    (hm : st.llm_manager = some m)
    (hold : st.current_model = some oldName)
    (hdiff : differs st model_name lp = true)
    (hres : (resolvedLoadingParams model_name lp).isSome = true) :
    (get_llm_manager st model_name lp (some reason) freshId).2.1 =
      ⟨none, some oldName, st.current_loading_params⟩ ∧
    model_status (get_llm_manager st model_name lp (some reason) freshId).2.1 =
      ⟨false, some oldName, statusCtx st.current_loading_params,
        st.current_loading_params⟩ := by
  have hL := Load_engineFail model_name lp reason freshId hres
  have hst : (get_llm_manager st model_name lp (some reason) freshId).2.1 =
      ⟨none, some oldName, st.current_loading_params⟩ := by
    simp [get_llm_manager, hm, hdiff, hL, hold]
  exact ⟨hst, by rw [hst]; rfl⟩

/-- The slot state after loading `MyMainLLM` with `{n_threads: 4}`. -/
def stThreads4 : ServerState :=
  (get_llm_manager ⟨none, none, none⟩ "MyMainLLM"
    (some [("n_threads", PVal.i 4)]) none 3).2.1

/-- The manager held by `stThreads4`. -/
def mgrThreads4 : LLMManager :=
  match stThreads4.llm_manager with
  | some m => m
  | none => junkManager

/-- Witness for C10: a failing swap from the loaded `MyMainLLM` to
`MySecondLLM` leaves the stale identity and parameters behind. -/
theorem failed_swap_stale_status_witness :
    (get_llm_manager stThreads4 "MySecondLLM" none (some "mmap failed") 4).2.1 =
      ⟨none, some "MyMainLLM", stThreads4.current_loading_params⟩ ∧
    model_status
        (get_llm_manager stThreads4 "MySecondLLM" none (some "mmap failed") 4).2.1 =
      ⟨false, some "MyMainLLM", statusCtx stThreads4.current_loading_params,
        stThreads4.current_loading_params⟩ :=
  failed_swap_stale_status stThreads4 "MySecondLLM" none "mmap failed" 4
    mgrThreads4 "MyMainLLM" rfl rfl (by decide) (by decide)

/-- Claim C6: a request with an empty prompt is rejected with a client error
(`400 No prompt provided`) before any engine invocation — the returned state
is untouched and no release/construct/generate event occurs. -/
theorem empty_prompt_rejected_before_engine
    (st : ServerState) (d : QueryData) (engineFail : Option String)
    (freshId : Nat) (er : EngineRun) (nr : Except (List Char) (List Char))
    (h : d.prompt = []) :
    process_query st d engineFail freshId er nr =
      (QueryResp.badRequest ("No prompt provided".data), st, []) := by
  simp [process_query, h]

/-- Witness for C6: an empty-prompt non-streaming request against an empty
slot, with a parameter override present in the body. -/
theorem empty_prompt_rejected_before_engine_witness :
    process_query ⟨none, none, none⟩
        ⟨[], [], none, some false, [("temperature", PVal.f 1)]⟩ none 1
        ⟨[], none⟩ (.ok "hi".data) =
      (QueryResp.badRequest ("No prompt provided".data), ⟨none, none, none⟩, []) :=
  empty_prompt_rejected_before_engine ⟨none, none, none⟩
    ⟨[], [], none, some false, [("temperature", PVal.f 1)]⟩ none 1
    ⟨[], none⟩ (.ok "hi".data) rfl

/-! ### Helper lemmas: validation policies -/


theorem validateLoadingParams_first_error (cfg : ModelConfig) :
    ∀ (ps : ParamsMap) (e : VErr), firstVErr cfg ps = some e →
      validateLoadingParams cfg ps = .error e := by
  intro ps
  induction ps with
  | nil => intro e h; simp [firstVErr] at h
  | cons p rest ih =>
    intro e h
    obtain ⟨n, v⟩ := p
    rw [firstVErr, List.findSome?_cons] at h
    unfold errOf at h
    dsimp only at h
    unfold validateLoadingParams
    generalize hs : loadStep cfg n v = s at h ⊢
    cases s with
    | error e' =>
      dsimp only at h ⊢
      rw [Option.some.injEq] at h
      rw [h]
    | ok v' =>
      dsimp only at h ⊢
      rw [ih e h]
      rfl

theorem lookupA_insertA_self {α : Type} (m : List (String × α)) (k : String)
    (v : α) : lookupA (insertA m k v) k = some v := by
  induction m with
  | nil => simp [insertA, lookupA]
  | cons p r ih =>
    obtain ⟨k', w⟩ := p
    by_cases h : k' = k
    · simp [insertA, h, lookupA]
    · simp [insertA, h, lookupA, ih]

theorem lookupA_insertA_ne {α : Type} (m : List (String × α)) (k k' : String)
    (v : α) (h : k ≠ k') : lookupA (insertA m k v) k' = lookupA m k' := by
  induction m with
  | nil => simp [insertA, lookupA, h]
  | cons p r ih =>
    obtain ⟨k₀, w⟩ := p
    by_cases h0 : k₀ = k
    · subst h0
      simp [insertA, lookupA, h]
    · simp only [insertA, if_neg h0, lookupA]
      by_cases h1 : k₀ = k'
      · simp [h1]
      · simp [h1, ih]

theorem extract_fold_skip (data : ParamsMap) :
    ∀ (regs : List (String × ParamDef)) (acc : ParamsMap) (n : String),
      n ∉ regs.map Prod.fst →
      lookupA (regs.foldl (extractStep data) acc) n = lookupA acc n := by
  intro regs
  induction regs with
  | nil => intro acc n _; rfl
  | cons p rest ih =>
    intro acc n hn
    simp only [List.map_cons, List.mem_cons, not_or] at hn
    obtain ⟨hn1, hn2⟩ := hn
    rw [List.foldl_cons, ih _ n hn2]
    unfold extractStep
    cases lookupA data p.1 with
    | none => rfl
    | some v =>
      dsimp only
      cases validate_parameter p.1 v p.2 with
      | ok v' =>
        dsimp only
        exact lookupA_insertA_ne acc p.1 n v' (fun hh => hn1 hh.symm)
      | error _ => rfl

theorem extract_fold_mem (data : ParamsMap) :
    ∀ (regs : List (String × ParamDef)) (acc : ParamsMap) (n : String)
      (pd : ParamDef),
      (regs.map Prod.fst).Nodup → (n, pd) ∈ regs → lookupA acc n = none →
      lookupA (regs.foldl (extractStep data) acc) n =
        (lookupA data n).bind (fun v => (validate_parameter n v pd).toOption) := by
  intro regs
  induction regs with
  | nil => intro acc n pd _ hmem _; simp at hmem
  | cons p rest ih =>
    intro acc n pd hnd hmem hacc
    obtain ⟨pn, ppd⟩ := p
    simp only [List.map_cons, List.nodup_cons] at hnd
    obtain ⟨hp1, hnd'⟩ := hnd
    rw [List.foldl_cons]
    rcases List.mem_cons.mp hmem with heq | hmem'
    · injection heq with h1 h2
      subst h1
      subst h2
      have hn_not : n ∉ rest.map Prod.fst := hp1
      rw [extract_fold_skip data rest _ n hn_not]
      unfold extractStep
      dsimp only
      cases hd : lookupA data n with
      | none => simp [hacc]
      | some v =>
        cases hv : validate_parameter n v pd with
        | ok v' => simp [lookupA_insertA_self, Except.toOption, hv]
        | error e => simp [hacc, Except.toOption, hv]
    · have hne : pn ≠ n := by
        intro hcontra
        subst hcontra
        exact hp1 (List.mem_map.mpr ⟨(pn, pd), hmem', rfl⟩)
      have hacc' : lookupA (extractStep data acc (pn, ppd)) n = none := by
        unfold extractStep
        dsimp only
        cases lookupA data pn with
        | none => exact hacc
        | some v =>
          dsimp only
          cases validate_parameter pn v ppd with
          | ok v' =>
            dsimp only
            rw [lookupA_insertA_ne acc pn n v' hne]
            exact hacc
          | error _ => exact hacc
      exact ih _ n pd hnd' hmem' hacc'

/-- Claim C5: the two validation policies differ as specified.  The loading
path rejects the entire load on the first parameter (in iteration order of
the merged map) that fails validation, producing no manager; the per-request
inference-override path keeps exactly the registry keys present in the body
whose values validate — an invalid value drops only its own key while the
remaining keys are still resolved. -/
theorem loading_rejects_inference_skips :
    (∀ (model_name : String) (lp : Option ParamsMap)
       (engineFail : Option String) (freshId : Nat) (cfg : ModelConfig)
       (e : VErr),
       lookupA MODEL_ASSIGNMENTS model_name = some cfg →
       firstVErr cfg (finalLoadingParams cfg lp) = some e →
       LLMManager.Load model_name lp engineFail freshId =
         .error (.validationFailed e)) ∧
    (∀ (data : ParamsMap) (n : String) (pd : ParamDef),
       (n, pd) ∈ GLOBAL_INFERENCE_PARAMETERS →
       lookupA (extract_inference_params data) n =
         (lookupA data n).bind (fun v => (validate_parameter n v pd).toOption)) := by
  constructor
  · intro model_name lp engineFail freshId cfg e hc he
    unfold LLMManager.Load
    rw [hc]
    dsimp only
    rw [validateLoadingParams_first_error cfg _ e he]
  · intro data n pd hmem
    exact extract_fold_mem data GLOBAL_INFERENCE_PARAMETERS [] n pd
      (by decide) hmem rfl

/-- The `ModelConfig` of `MyMainLLM`. -/
def mainCfg : ModelConfig :=
  (lookupA MODEL_ASSIGNMENTS "MyMainLLM").getD ⟨"", "", 0, [], [], []⟩

/-- The registry definition of `temperature`. -/
def tempDef : ParamDef :=
  (lookupA GLOBAL_INFERENCE_PARAMETERS "temperature").getD
    ⟨PVal.i 0, none, none, PType.float, ""⟩

/-- The registry definition of `top_k`. -/
def topkDef : ParamDef :=
  (lookupA GLOBAL_INFERENCE_PARAMETERS "top_k").getD
    ⟨PVal.i 0, none, none, PType.float, ""⟩

/-- Witness for C5: a load whose `n_threads` override is out of range is
rejected whole, while a query body with an uncoercible `temperature` and a
valid `top_k` keeps only `top_k`. -/
theorem loading_rejects_inference_skips_witness :
    LLMManager.Load "MyMainLLM" (some [("n_threads", PVal.i 100)]) none 1 =
      .error (.validationFailed (.rangeAbove "n_threads")) ∧
    lookupA (extract_inference_params
      [("temperature", PVal.s "abc"), ("top_k", PVal.i 50)]) "temperature" =
        none ∧
    lookupA (extract_inference_params
      [("temperature", PVal.s "abc"), ("top_k", PVal.i 50)]) "top_k" =
        some (PVal.i 50) :=
  ⟨loading_rejects_inference_skips.1 "MyMainLLM"
      (some [("n_threads", PVal.i 100)]) none 1 mainCfg
      (.rangeAbove "n_threads") (by decide) (by decide),
    (loading_rejects_inference_skips.2
      [("temperature", PVal.s "abc"), ("top_k", PVal.i 50)] "temperature"
      tempDef (by decide)).trans (by decide),
    (loading_rejects_inference_skips.2
      [("temperature", PVal.s "abc"), ("top_k", PVal.i 50)] "top_k"
      topkDef (by decide)).trans (by decide)⟩

/-! ### Helper lemmas: context accounting -/

theorem usage_eqs (m : LLMManager) (tokRes : Option (List Nat))
    (text : List Char)
    (h : 0 < (m.get_context_usage tokRes text).max_context) :
    (m.get_context_usage tokRes text).remaining_tokens =
      (m.get_context_usage tokRes text).max_context -
        ((m.get_context_usage tokRes text).token_count : ℚ) ∧
    (m.get_context_usage tokRes text).usage_percentage =
      pyRound1 ((((m.get_context_usage tokRes text).token_count : ℚ) /
        (m.get_context_usage tokRes text).max_context) * 100) := by
  unfold LLMManager.get_context_usage at h ⊢
  dsimp only at h ⊢
  refine ⟨rfl, ?_⟩
  rw [if_pos h]

theorem estimate_eqs (model_name : String) (text : List Char) (u : ContextUsage)
    (hu : count_tokens_estimate model_name text = .ok u)
    (hpos : 0 < u.max_context) :
    u.remaining_tokens = u.max_context - (u.token_count : ℚ) ∧
    u.usage_percentage =
      pyRound1 (((u.token_count : ℚ) / u.max_context) * 100) := by
  unfold count_tokens_estimate at hu
  cases hc : lookupA MODEL_ASSIGNMENTS model_name with
  | none => rw [hc] at hu; simp at hu
  | some config =>
    rw [hc] at hu
    dsimp only at hu
    rw [Except.ok.injEq] at hu
    subst hu
    dsimp only at hpos ⊢
    refine ⟨rfl, ?_⟩
    rw [if_pos hpos]

/-- Claim C7: every context-usage result (from the accountant and from the
`/count_tokens` estimation branch alike) satisfies
`remaining_tokens = max_context - token_count` and
`usage_percentage = round(token_count / max_context * 100, 1)` whenever
`max_context > 0`, and `remaining_tokens` is not clamped at zero — it goes
negative when the text exceeds the context window. -/
theorem context_usage_formulas :
    (∀ (m : LLMManager) (tokRes : Option (List Nat)) (text : List Char),
       0 < (m.get_context_usage tokRes text).max_context →
       (m.get_context_usage tokRes text).remaining_tokens =
         (m.get_context_usage tokRes text).max_context -
           ((m.get_context_usage tokRes text).token_count : ℚ) ∧
       (m.get_context_usage tokRes text).usage_percentage =
         pyRound1 ((((m.get_context_usage tokRes text).token_count : ℚ) /
           (m.get_context_usage tokRes text).max_context) * 100)) ∧
    (∀ (st : ServerState) (text : List Char) (modelReq : Option String)
       (tokRes : Option (List Nat)) (u : ContextUsage),
       count_tokens_route st text modelReq tokRes = .ok u →
       0 < u.max_context →
       u.remaining_tokens = u.max_context - (u.token_count : ℚ) ∧
       u.usage_percentage =
         pyRound1 (((u.token_count : ℚ) / u.max_context) * 100)) ∧
    (∃ (m : LLMManager) (tokRes : Option (List Nat)) (text : List Char),
       (m.get_context_usage tokRes text).remaining_tokens < 0) := by
  refine ⟨usage_eqs, ?_, ?_⟩
  · intro st text modelReq tokRes u hu hpos
    unfold count_tokens_route at hu
    by_cases ht : text = []
    · simp [ht] at hu
    · rw [if_neg ht] at hu
      cases hm : st.llm_manager with
      | none =>
        rw [hm] at hu
        exact estimate_eqs _ _ _ hu hpos
      | some m =>
        rw [hm] at hu
        dsimp only at hu
        by_cases hcm : st.current_model =
            some ((modelReq.getD (defaultModelName st.current_model)))
        · rw [if_pos hcm, Except.ok.injEq] at hu
          subst hu
          exact usage_eqs _ _ _ hpos
        · rw [if_neg hcm] at hu
          exact estimate_eqs _ _ _ hu hpos
  · refine ⟨⟨⟨"", "", 0, [], [], []⟩,
      some ⟨1, "p", PVal.i (-1), PVal.i 4, PVal.i 8, PVal.b true, PVal.b true,
        PVal.b true⟩, []⟩, some [0, 1, 2, 3, 4], [], ?_⟩
    show (LLMManager.get_context_usage _ _ _).remaining_tokens < 0
    unfold LLMManager.get_context_usage LLMManager.count_tokens pvalQ
    dsimp only
    norm_num

/-- Witness for C7: the usage report of the default-loaded `MyMainLLM`
manager (context window 2048) over a three-token text. -/
theorem context_usage_formulas_witness :
    (mgrMainDefault.get_context_usage (some [1, 2, 3]) "hi".data).remaining_tokens =
      (mgrMainDefault.get_context_usage (some [1, 2, 3]) "hi".data).max_context -
        ((mgrMainDefault.get_context_usage (some [1, 2, 3]) "hi".data).token_count : ℚ) ∧
    (mgrMainDefault.get_context_usage (some [1, 2, 3]) "hi".data).usage_percentage =
      pyRound1 ((((mgrMainDefault.get_context_usage (some [1, 2, 3]) "hi".data).token_count : ℚ) /
        (mgrMainDefault.get_context_usage (some [1, 2, 3]) "hi".data).max_context) * 100) :=
  context_usage_formulas.1 mgrMainDefault (some [1, 2, 3]) "hi".data (by decide)

/-- Claim C8: for every parameter definition the program declares with both
`min` and `max` bounds, validating a value that coerces below the minimum or
above the maximum raises the corresponding range error, and validating a
value that coerces into the range returns exactly the coerced value. -/
theorem bounded_params_range_check :
    ∀ p ∈ allParamDefs, ∀ (lo hi : ℚ), p.2.minv = some lo →
      p.2.maxv = some hi →
      ∀ (v c : PVal) (q : ℚ), coerceNum p.2.ptype v = some (c, q) →
        ((q < lo →
          validate_parameter p.1 v p.2 = .error (.rangeBelow p.1)) ∧
         (hi < q →
          validate_parameter p.1 v p.2 = .error (.rangeAbove p.1)) ∧
         (lo ≤ q → q ≤ hi → validate_parameter p.1 v p.2 = .ok c)) := by
  intro p hp lo hi hlo hhi v c q hc
  have hall : allParamDefs.all
      (fun r => match r.2.minv, r.2.maxv with
        | some l, some h => decide (l ≤ h)
        | _, _ => true) = true := by decide
  have hple := List.all_eq_true.mp hall p hp
  rw [hlo, hhi] at hple
  have hlohi : lo ≤ hi := of_decide_eq_true hple
  unfold validate_parameter
  cases hpt : p.2.ptype with
  | boolean => rw [hpt] at hc; simp [coerceNum] at hc
  | integer =>
    rw [hpt] at hc
    cases hti : toInt? v with
    | none => simp [coerceNum, hti] at hc
    | some z =>
      simp only [coerceNum, hti, Option.map_some', Option.some.injEq,
        Prod.mk.injEq] at hc
      obtain ⟨hc1, hc2⟩ := hc
      subst hc1
      subst hc2
      dsimp only
      unfold rangeCheck
      rw [hlo, hhi]
      refine ⟨?_, ?_, ?_⟩
      · intro hlt
        rw [if_pos (by simp [belowMin, hlt])]
      · intro hgt
        have hnlt : ¬ ((z : ℚ) < lo) := not_lt.mpr (hlohi.trans hgt.le)
        rw [if_neg (by simp [belowMin, hnlt]), if_pos (by simp [aboveMax, hgt])]
      · intro h1 h2
        rw [if_neg (by simp [belowMin, not_lt.mpr h1]),
          if_neg (by simp [aboveMax, not_lt.mpr h2])]
  | float =>
    rw [hpt] at hc
    cases htf : toFloat? v with
    | none => simp [coerceNum, htf] at hc
    | some qf =>
      simp only [coerceNum, htf, Option.map_some', Option.some.injEq,
        Prod.mk.injEq] at hc
      obtain ⟨hc1, hc2⟩ := hc
      subst hc1
      subst hc2
      dsimp only
      unfold rangeCheck
      rw [hlo, hhi]
      refine ⟨?_, ?_, ?_⟩
      · intro hlt
        rw [if_pos (by simp [belowMin, hlt])]
      · intro hgt
        have hnlt : ¬ (qf < lo) := not_lt.mpr (hlohi.trans hgt.le)
        rw [if_neg (by simp [belowMin, hnlt]), if_pos (by simp [aboveMax, hgt])]
      · intro h1 h2
        rw [if_neg (by simp [belowMin, not_lt.mpr h1]),
          if_neg (by simp [aboveMax, not_lt.mpr h2])]

/-- The registry definition of `n_threads`. -/
def nThreadsDef : ParamDef :=
  (lookupA GLOBAL_LOADING_PARAMETERS "n_threads").getD
    ⟨PVal.i 0, none, none, PType.float, ""⟩

/-- Witness for C8 on the `n_threads` definition (bounds 1–32): the value 50
raises the above-maximum range error and the value 8 round-trips unchanged. -/
theorem bounded_params_range_check_witness :
    validate_parameter "n_threads" (PVal.i 50) nThreadsDef =
      .error (.rangeAbove "n_threads") ∧
    validate_parameter "n_threads" (PVal.i 8) nThreadsDef =
      .ok (PVal.i 8) :=
  ⟨(bounded_params_range_check ("n_threads", nThreadsDef) (by decide) 1 32
      (by decide) (by decide) (PVal.i 50) (PVal.i 50) 50 (by decide)).2.1
      (by norm_num),
    (bounded_params_range_check ("n_threads", nThreadsDef) (by decide) 1 32
      (by decide) (by decide) (PVal.i 8) (PVal.i 8) 8 (by decide)).2.2
      (by norm_num) (by norm_num)⟩

/-- Claim C9: for a boolean parameter definition, validating a string value
yields `true` exactly when the lower-cased string is one of
`"true"`, `"1"`, `"yes"`, `"on"` — i.e. those four words in any letter case —
and `false` for every other string. -/
theorem boolean_string_coercion (pname : String) (s : String) (pd : ParamDef)
    (h : pd.ptype = PType.boolean) :
    (validate_parameter pname (PVal.s s) pd = .ok (PVal.b true) ↔
      pyLower s ∈ (["true", "1", "yes", "on"] : List String)) ∧
    (validate_parameter pname (PVal.s s) pd = .ok (PVal.b false) ↔
      pyLower s ∉ (["true", "1", "yes", "on"] : List String)) := by
  unfold validate_parameter
  rw [h]
  simp [pyLowerIn, decide_eq_true_eq]

/-- The registry definition of `use_mlock`. -/
def useMlockDef : ParamDef :=
  (lookupA GLOBAL_LOADING_PARAMETERS "use_mlock").getD
    ⟨PVal.i 0, none, none, PType.float, ""⟩

/-- Witness for C9 on the `use_mlock` definition: `"TrUe"` coerces to `true`,
`"nope"` coerces to `false`. -/
theorem boolean_string_coercion_witness :
    validate_parameter "use_mlock" (PVal.s "TrUe") useMlockDef =
      .ok (PVal.b true) ∧
    validate_parameter "use_mlock" (PVal.s "nope") useMlockDef =
      .ok (PVal.b false) :=
  ⟨(boolean_string_coercion "use_mlock" "TrUe" useMlockDef (by decide)).1.mpr
      (by decide),
    (boolean_string_coercion "use_mlock" "nope" useMlockDef (by decide)).2.mpr
      (by decide)⟩
